import Mathlib

/-!
Verification of the ics-calendar-reader script (scripts/read_ics.py).

This file gives a shallow embedding of the script's pure core: line
unfolding, text unescaping, property parsing, date/date-time decoding,
VEVENT assembly, temporal filtering/sorting/limiting, calendar-URL
normalization, the sha256 cache key, and the TTL/stale-fallback fetch
cache (with the network modelled as an explicit outcome parameter and
wall-clock time as an explicit integer parameter).

Conventions of the embedding:
* Python str values are Lean String / List Char; Python int is Int/Nat.
* Absolute instants (aware datetimes compared by the filter) are Int
  seconds since the Unix epoch.
* Python code that can raise returns Except; code whose exceptions the
  script swallows returns Option.
* The ZoneInfo time-zone database is modelled as an explicit parameter
  tzdb : String -> Option Int giving the UTC offset in seconds for a
  TZID, or none when the zone cannot be resolved (this also covers the
  case where the zoneinfo module failed to import).
-/

/-- Python str.splitlines (restricted to the line breaks LF, CR, CRLF,
which is the repertoire produced and consumed by this pipeline).
A trailing line break produces no extra empty line. -/
def splitlinesList : List Char → List (List Char)
  | [] => []
  | c :: cs =>
    if c = '\x0a' then [] :: splitlinesList cs
    else if c = '\x0d' then
      match cs with
      | d :: rest =>
        if d = '\x0a' then [] :: splitlinesList rest
        else [] :: splitlinesList (d :: rest)
      | [] => [[]]
    else
      match splitlinesList cs with
      | [] => [[c]]
      | l :: ls => (c :: l) :: ls

/-- Python text.splitlines() on a String. -/
def pySplitlines (s : String) : List String :=
  (splitlinesList s.data).map String.mk

/-- Leading-whitespace removal (one side of str.strip). -/
def dropLeadingWS : List Char → List Char
  | [] => []
  | c :: cs => if c.isWhitespace then dropLeadingWS cs else c :: cs

/-- Python str.strip() for the ASCII whitespace this pipeline meets. -/
def pyStrip (cs : List Char) : List Char :=
  (dropLeadingWS (dropLeadingWS cs).reverse).reverse

/-- str.startswith on character lists. -/
def listStartsWith : List Char → List Char → Bool
  | [], _ => true
  | _ :: _, [] => false
  | p :: ps, c :: cs => p = c && listStartsWith ps cs

/-- One step of the unfolding loop of unfold_ical_lines: a line starting
with a space or horizontal tab is appended (minus its first character)
to the previous logical line; the first line is never a continuation. -/
def unfold_step (unfolded : List String) (line : String) : List String :=
  match unfolded with
  | [] => [line]
  | _ :: _ =>
    if listStartsWith [' '] line.data || listStartsWith ['\t'] line.data then
      unfolded.dropLast ++ [unfolded.getLastD "" ++ String.mk (line.data.drop 1)]
    else
      unfolded ++ [line]

/-- unfold_ical_lines: join folded ICS lines. -/
def unfold_ical_lines (text : String) : List String :=
  (pySplitlines text).foldl unfold_step []

/-- Python two-character str.replace: replace every non-overlapping
occurrence of the two-character pattern a,b by repl, scanning left to
right (the semantics of str.replace for a fixed two-character old). -/
def replacePair (a b : Char) (repl : List Char) : List Char → List Char
  | [] => []
  | [c] => [c]
  | c :: d :: rest =>
    if c = a ∧ d = b then repl ++ replacePair a b repl rest
    else c :: replacePair a b repl (d :: rest)

/-- unescape_ical_text: the chained str.replace calls of the source, in
source order: backslash-backslash, backslash-n, backslash-N,
backslash-comma, backslash-semicolon. -/
def unescape_ical_text (value : String) : String :=
  String.mk
    (replacePair '\\' ';' [';']
      (replacePair '\\' ',' [',']
        (replacePair '\\' 'N' ['\x0a']
          (replacePair '\\' 'n' ['\x0a']
            (replacePair '\\' '\\' ['\\'] value.data)))))

/-- Split a character list at the first character satisfying p:
some (before, after-without-separator), or none when no character
satisfies p.  Used for str.partition and str.split(sep, 1). -/
def splitFirst (p : Char → Bool) : List Char → Option (List Char × List Char)
  | [] => none
  | c :: cs =>
    if p c then some ([], cs)
    else
      match splitFirst p cs with
      | some (l, r) => some (c :: l, r)
      | none => none

/-- Python str.split(sep) for a one-character separator. -/
def pySplitOn (sep : Char) : List Char → List (List Char)
  | [] => [[]]
  | c :: cs =>
    if c = sep then [] :: pySplitOn sep cs
    else
      match pySplitOn sep cs with
      | [] => [[c]]
      | l :: ls => (c :: l) :: ls

/-- Longest prefix of characters not satisfying p, and the rest.
Used for netloc extraction in urlsplit. -/
def spanUntil (p : Char → Bool) : List Char → List Char × List Char
  | [] => ([], [])
  | c :: cs =>
    if p c then ([], c :: cs)
    else
      let r := spanUntil p cs
      (c :: r.1, r.2)

/-- Dictionary lookup on an association list built by repeated
assignment: the last binding of a key wins, none when absent
(dict.get semantics for the params dict of parse_property). -/
def pget (params : List (String × String)) (k : String) : Option String :=
  params.foldl (fun acc p => if p.1 = k then some p.2 else acc) none

/-- parse_property: split a logical line into upper-cased property
name, parameter alist (parameter names upper-cased, only segments
containing an equals sign contribute), and raw value.  A line with no
colon yields value "" (str.partition semantics). -/
def parse_property (line : String) : String × List (String × String) × String :=
  let lv : List Char × List Char :=
    match splitFirst (fun c => c = ':') line.data with
    | some (l, v) => (l, v)
    | none => (line.data, [])
  let segs := pySplitOn ';' lv.1
  let key_part := segs.headD []
  let param_parts := segs.tail
  let key := String.mk (key_part.map Char.toUpper)
  let params := param_parts.foldl (fun ps part =>
    match splitFirst (fun c => c = '=') part with
    | some (pk, pv) => ps ++ [(String.mk (pk.map Char.toUpper), String.mk pv)]
    | none => ps) []
  (key, params, String.mk lv.2)

/-- Value of a decimal digit character, none for non-digits. -/
def digitVal (c : Char) : Option Nat :=
  if c.isDigit then some (c.toNat - 48) else none

/-- Two decimal digit characters as a number. -/
def digit2 (a b : Char) : Option Nat :=
  match digitVal a, digitVal b with
  | some x, some y => some (10 * x + y)
  | _, _ => none

/-- Four decimal digit characters as a number. -/
def digit4 (a b c d : Char) : Option Nat :=
  match digit2 a b, digit2 c d with
  | some x, some y => some (100 * x + y)
  | _, _ => none

/-- Gregorian leap year. -/
def isLeap (y : Nat) : Bool :=
  y % 4 = 0 && (y % 100 ≠ 0 || y % 400 = 0)

/-- Days in a month of a given year. -/
def daysInMonth (y m : Nat) : Nat :=
  if m = 2 then (if isLeap y then 29 else 28)
  else if m = 4 ∨ m = 6 ∨ m = 9 ∨ m = 11 then 30
  else 31

/-- Days from 1970-01-01 to the given valid civil date (may be negative
for dates before the epoch; our dates have year at least 1).  Standard
civil-from-days inverse computed over whole 400-year eras. -/
def daysFromCivil (y m d : Nat) : Int :=
  let yAdj : Nat := if m ≤ 2 then y - 1 else y
  let era : Nat := yAdj / 400
  let yoe : Nat := yAdj - era * 400
  let mp : Nat := (m + 9) % 12
  let doy : Nat := (153 * mp + 2) / 5 + d - 1
  let doe : Nat := yoe * 365 + yoe / 4 - yoe / 100 + doy
  (era * 146097 + doe : Int) - 719468

/-- Seconds since the Unix epoch of a civil date-time at a fixed UTC
offset (offset in seconds, subtracted to reach UTC). -/
def toEpoch (y m d h mi s : Nat) (off : Int) : Int :=
  86400 * daysFromCivil y m d + (h * 3600 + mi * 60 + s : Nat) - off

/-- Left-pad a decimal rendering with zeros to the given width. -/
def padNum (width n : Nat) : String :=
  let s := toString n
  String.mk (List.replicate (width - s.length) '0') ++ s

/-- date.isoformat(): YYYY-MM-DD. -/
def isoDate (y m d : Nat) : String :=
  padNum 4 y ++ "-" ++ padNum 2 m ++ "-" ++ padNum 2 d

/-- utcoffset rendering used by datetime.isoformat(): sign, HH:MM, and
a :SS tail only when the offset is not a whole number of minutes. -/
def isoOffset (off : Int) : String :=
  let sign := if off < 0 then "-" else "+"
  let a := off.natAbs
  let base := sign ++ padNum 2 (a / 3600) ++ ":" ++ padNum 2 (a % 3600 / 60)
  if a % 60 = 0 then base else base ++ ":" ++ padNum 2 (a % 60)

/-- A Python datetime value as produced by parse_dt: civil fields plus
an optional fixed UTC offset in seconds (none = naive/floating). -/
structure PyDT where
  year : Nat
  month : Nat
  day : Nat
  hour : Nat
  minute : Nat
  second : Nat
  tz : Option Int
deriving DecidableEq, Repr

/-- datetime.isoformat() for a PyDT. -/
def pyIsoformat (t : PyDT) : String :=
  isoDate t.year t.month t.day ++ "T" ++ padNum 2 t.hour ++ ":" ++
    padNum 2 t.minute ++ ":" ++ padNum 2 t.second ++
    (match t.tz with
     | some off => isoOffset off
     | none => "")

/-- DATE_RE: ^\d\x7b8\x7d$ . -/
def dateRe (cs : List Char) : Bool :=
  cs.length = 8 && cs.all Char.isDigit

/-- DATETIME_RE: eight digits, a literal T, six digits, optional Z. -/
def datetimeRe (cs : List Char) : Bool :=
  match cs with
  | [a, b, c, d, e, f, g, h, t, i, j, k, l, m, n] =>
    t = 'T' && [a, b, c, d, e, f, g, h, i, j, k, l, m, n].all Char.isDigit
  | [a, b, c, d, e, f, g, h, t, i, j, k, l, m, n, z] =>
    t = 'T' && z = 'Z' && [a, b, c, d, e, f, g, h, i, j, k, l, m, n].all Char.isDigit
  | _ => false

/-- Exceptions of the Python date layer that the script does not catch. -/
inductive PyErr where
  | valueError
deriving DecidableEq, Repr

/-- datetime.strptime(value, "%Y%m%d") on an eight-digit string:
returns the (year, month, day) triple, or none (ValueError) when the
digits do not form a valid calendar date with year at least 1. -/
def strptime8 (cs : List Char) : Option (Nat × Nat × Nat) :=
  match cs with
  | [y1, y2, y3, y4, m1, m2, d1, d2] =>
    match digit4 y1 y2 y3 y4, digit2 m1 m2, digit2 d1 d2 with
    | some y, some m, some d =>
      if 1 ≤ y ∧ 1 ≤ m ∧ m ≤ 12 ∧ 1 ≤ d ∧ d ≤ daysInMonth y m then some (y, m, d)
      else none
    | _, _, _ => none
  | _ => none

/-- datetime.strptime on "%Y%m%dT%H%M%S" (the fourteen digit positions,
the caller has already matched the shape): none on ValueError. -/
def strptime14 (cs : List Char) : Option (Nat × Nat × Nat × Nat × Nat × Nat) :=
  match cs with
  | [y1, y2, y3, y4, m1, m2, d1, d2, _t, h1, h2, n1, n2, s1, s2] =>
    match digit4 y1 y2 y3 y4, digit2 m1 m2, digit2 d1 d2,
          digit2 h1 h2, digit2 n1 n2, digit2 s1 s2 with
    | some y, some m, some d, some h, some n, some s =>
      if 1 ≤ y ∧ 1 ≤ m ∧ m ≤ 12 ∧ 1 ≤ d ∧ d ≤ daysInMonth y m ∧
         h ≤ 23 ∧ n ≤ 59 ∧ s ≤ 59 then some (y, m, d, h, n, s)
      else none
    | _, _, _, _, _, _ => none
  | _ => none

/-- parse_dt: decode a DTSTART/DTEND value.  Returns the triple
(sortable datetime, ISO string, all_day); raises ValueError (modelled
as Except.error) when strptime fails on a regex-matching value, which
the script does not catch.  tzdb models ZoneInfo lookup (see header). -/
def parse_dt (tzdb : String → Option Int) (value : String)
    (params : List (String × String)) :
    Except PyErr (Option PyDT × Option String × Bool) :=
  let v := String.mk (pyStrip value.data)
  let tzid := pget params "TZID"
  if dateRe v.data then
    match strptime8 v.data with
    | none => .error .valueError
    | some (y, m, d) =>
      -- All-day at midnight, naive, plus the all_day flag.
      .ok (some ⟨y, m, d, 0, 0, 0, none⟩, some (isoDate y m d), true)
  else if datetimeRe v.data then
    if v.data.getLast? = some 'Z' then
      match strptime14 (v.data.dropLast) with
      | none => .error .valueError
      | some (y, m, d, h, n, s) =>
        let parsed : PyDT := ⟨y, m, d, h, n, s, some 0⟩
        .ok (some parsed, some (pyIsoformat parsed), false)
    else
      match strptime14 v.data with
      | none => .error .valueError
      | some (y, m, d, h, n, s) =>
        let parsed : PyDT := ⟨y, m, d, h, n, s, none⟩
        let parsed :=
          match tzid with
          | some z =>
            -- if tzid and ZoneInfo is not None: best-effort attach.
            if z ≠ "" then
              match tzdb z with
              | some off => { parsed with tz := some off }
              | none => parsed
            else parsed
          | none => parsed
        .ok (some parsed, some (pyIsoformat parsed), false)
  else
    .ok (none, none, false)

/-- Event: the normalized record built by parse_ics_events for one
VEVENT block.  sort_start models the internal _sort_start entry, which
parse_ics_events pops before returning. -/
structure Event where
  summary : Option String := none
  start : Option String := none
  «end» : Option String := none
  all_day : Bool := false
  location : Option String := none
  description : Option String := none
  status : Option String := none
  uid : Option String := none
  organizer : Option String := none
  attendees : List String := []
  is_ongoing : Option Bool := none
  sort_start : Option PyDT := none
deriving DecidableEq, Repr

/-- The freshly initialized record created at BEGIN:VEVENT. -/
def emptyEvent : Event := {}

/-- Parser state: the events collected so far and the open record. -/
structure ParseState where
  events : List Event := []
  current : Option Event := none
deriving DecidableEq, Repr

/-- One iteration of the parse_ics_events loop on a logical line. -/
def parseStep (tzdb : String → Option Int) (st : ParseState) (line : String) :
    Except PyErr ParseState :=
  if line = "BEGIN:VEVENT" then
    .ok { st with current := some emptyEvent }
  else if line = "END:VEVENT" then
    match st.current with
    | some ev => .ok { events := st.events ++ [ev], current := none }
    | none => .ok { st with current := none }
  else
    match st.current with
    | none => .ok st
    | some ev =>
      if line.data.contains ':' = false then .ok st
      else
        let kpv := parse_property line
        let key := kpv.1
        let params := kpv.2.1
        let raw_value := unescape_ical_text kpv.2.2
        if key = "SUMMARY" then
          .ok { st with current := some { ev with summary := some raw_value } }
        else if key = "DESCRIPTION" then
          .ok { st with current := some { ev with description := some raw_value } }
        else if key = "LOCATION" then
          .ok { st with current := some { ev with location := some raw_value } }
        else if key = "STATUS" then
          .ok { st with current := some { ev with status := some raw_value } }
        else if key = "UID" then
          .ok { st with current := some { ev with uid := some raw_value } }
        else if key = "ORGANIZER" then
          .ok { st with current := some { ev with organizer := some raw_value } }
        else if key = "ATTENDEE" then
          let attendee_value :=
            match pget params "CN" with
            | some cn => if cn ≠ "" then cn ++ " <" ++ raw_value ++ ">" else raw_value
            | none => raw_value
          .ok { st with current := some { ev with attendees := ev.attendees ++ [attendee_value] } }
        else if key = "DTSTART" then
          match parse_dt tzdb raw_value params with
          | .error e => .error e
          | .ok (sort_dt, iso, all_day) =>
            .ok { st with current := some { ev with start := iso, all_day := all_day, sort_start := sort_dt } }
        else if key = "DTEND" then
          match parse_dt tzdb raw_value params with
          | .error e => .error e
          | .ok (_, iso, _) =>
            .ok { st with current := some { ev with «end» := iso } }
        else
          .ok st

/-- Run the parse loop over a list of logical lines. -/
def parseLines (tzdb : String → Option Int) :
    ParseState → List String → Except PyErr ParseState
  | st, [] => .ok st
  | st, l :: ls =>
    match parseStep tzdb st l with
    | .ok st2 => parseLines tzdb st2 ls
    | .error e => .error e

/-- parse_ics_events: unfold, run the loop, pop _sort_start from every
collected event.  An open record at end of input is discarded (only
END:VEVENT appends). -/
def parse_ics_events (tzdb : String → Option Int) (text : String) :
    Except PyErr (List Event) :=
  match parseLines tzdb {} (unfold_ical_lines text) with
  | .ok st => .ok (st.events.map (fun e => { e with sort_start := none }))
  | .error e => .error e

/-- date.fromisoformat on a ten-character string of the dashed
YYYY-MM-DD shape (the shape this pipeline produces; other ten-character
spellings accepted by newer Python are outside the model's domain and
never arise from parse_dt).  none models ValueError. -/
def parseIsoDate (cs : List Char) : Option (Nat × Nat × Nat) :=
  match cs with
  | [y1, y2, y3, y4, da, m1, m2, db, d1, d2] =>
    if da = '-' ∧ db = '-' then
      match digit4 y1 y2 y3 y4, digit2 m1 m2, digit2 d1 d2 with
      | some y, some m, some d =>
        if 1 ≤ y ∧ 1 ≤ m ∧ m ≤ 12 ∧ 1 ≤ d ∧ d ≤ daysInMonth y m then some (y, m, d)
        else none
      | _, _, _ => none
    else none
  | _ => none

/-- datetime.fromisoformat on the date-time spellings this pipeline
produces: YYYY-MM-DDTHH:MM:SS with an optional +HH:MM / -HH:MM offset.
Returns the civil fields and the optional offset in seconds; none
models ValueError. -/
def parseIsoDateTime (cs : List Char) :
    Option (Nat × Nat × Nat × Nat × Nat × Nat × Option Int) :=
  match cs with
  | [y1, y2, y3, y4, da, m1, m2, db, d1, d2, t, h1, h2, ca, n1, n2, cb, s1, s2] =>
    if da = '-' ∧ db = '-' ∧ t = 'T' ∧ ca = ':' ∧ cb = ':' then
      match digit4 y1 y2 y3 y4, digit2 m1 m2, digit2 d1 d2,
            digit2 h1 h2, digit2 n1 n2, digit2 s1 s2 with
      | some y, some m, some d, some h, some n, some s =>
        if 1 ≤ y ∧ 1 ≤ m ∧ m ≤ 12 ∧ 1 ≤ d ∧ d ≤ daysInMonth y m ∧
           h ≤ 23 ∧ n ≤ 59 ∧ s ≤ 59 then some (y, m, d, h, n, s, none)
        else none
      | _, _, _, _, _, _ => none
    else none
  | [y1, y2, y3, y4, da, m1, m2, db, d1, d2, t, h1, h2, ca, n1, n2, cb, s1, s2,
     sg, o1, o2, cc, o3, o4] =>
    if da = '-' ∧ db = '-' ∧ t = 'T' ∧ ca = ':' ∧ cb = ':' ∧ cc = ':' ∧
       (sg = '+' ∨ sg = '-') then
      match digit4 y1 y2 y3 y4, digit2 m1 m2, digit2 d1 d2,
            digit2 h1 h2, digit2 n1 n2, digit2 s1 s2,
            digit2 o1 o2, digit2 o3 o4 with
      | some y, some m, some d, some h, some n, some s, some oh, some om =>
        if 1 ≤ y ∧ 1 ≤ m ∧ m ≤ 12 ∧ 1 ≤ d ∧ d ≤ daysInMonth y m ∧
           h ≤ 23 ∧ n ≤ 59 ∧ s ≤ 59 ∧ oh ≤ 23 ∧ om ≤ 59 then
          let off : Int := (oh * 3600 + om * 60 : Nat)
          some (y, m, d, h, n, s, some (if sg = '-' then -off else off))
        else none
      | _, _, _, _, _, _, _, _ => none
    else none
  | _ => none

/-- Body of normalize_event_start on the stored ISO string: a
ten-character value is a calendar date at UTC midnight, anything else
is parsed as a date-time and assumed UTC when naive; unparsable gives
none (the try/except returning None). -/
def normStartStr : Option String → Option Int
  | none => none
  | some s =>
    if s.length = 10 then
      match parseIsoDate s.data with
      | some (y, m, d) => some (86400 * daysFromCivil y m d)
      | none => none
    else
      match parseIsoDateTime s.data with
      | some (y, m, d, h, n, sec, off) => some (toEpoch y m d h n sec (off.getD 0))
      | none => none

/-- normalize_event_start: derive the comparable start instant. -/
def normalize_event_start (event : Event) : Option Int :=
  normStartStr event.start

/-- Body of normalize_event_end: like the start, but a missing or
unparsable end falls back to the start instant. -/
def normEndStr (endv startv : Option String) : Option Int :=
  match endv with
  | none => normStartStr startv
  | some s =>
    if s.length = 10 then
      match parseIsoDate s.data with
      | some (y, m, d) => some (86400 * daysFromCivil y m d)
      | none => normStartStr startv
    else
      match parseIsoDateTime s.data with
      | some (y, m, d, h, n, sec, off) => some (toEpoch y m d h n sec (off.getD 0))
      | none => normStartStr startv

/-- normalize_event_end: derive the comparable end instant. -/
def normalize_event_end (event : Event) : Option Int :=
  normEndStr event.«end» event.start

/-- The first skip condition of the filter loop: after is set and the
event's end instant is strictly before it (None is falsy, an aware
datetime is always truthy in the Python condition). -/
def droppedByAfter (after : Option Int) (e : Int) : Bool :=
  match after with
  | some a => decide (e < a)
  | none => false

/-- The second skip condition: before is set and the start is strictly
after it. -/
def droppedByBefore (before : Option Int) (s : Int) : Bool :=
  match before with
  | some b => decide (b < s)
  | none => false

/-- The is_ongoing annotation written by the filter loop:
start <= now <= end. -/
def setOngoing (ev : Event) (s e now : Int) : Event :=
  { ev with is_ongoing := some (decide (s ≤ now ∧ now ≤ e)) }

/-- The annotation loop of filter_events: drop events without a
resolvable start or end, apply the overlap predicate, annotate the
survivors with is_ongoing and pair them with their start instant,
preserving encounter order. -/
def annotateEvents (after before : Option Int) (now : Int) : List Event → List (Int × Event)
  | [] => []
  | ev :: rest =>
    match normalize_event_start ev, normalize_event_end ev with
    | some s, some e =>
      if droppedByAfter after e then annotateEvents after before now rest
      else if droppedByBefore before s then annotateEvents after before now rest
      else (s, setOngoing ev s e now) :: annotateEvents after before now rest
    | some _, none => annotateEvents after before now rest
    | none, _ => annotateEvents after before now rest

/-- Stable insertion by the start-instant key: the new element goes
before the first strictly greater key and after earlier elements with
an equal key is not possible here because insertByStart is applied to
the later-encountered suffix (see sortByStart); with the non-strict
comparison the earlier element stays first on ties. -/
def insertByStart (x : Int × Event) : List (Int × Event) → List (Int × Event)
  | [] => [x]
  | y :: ys => if x.1 ≤ y.1 then x :: y :: ys else y :: insertByStart x ys

/-- Stable sort by start instant (list.sort(key=pair[0]) is a stable
sort comparing only the key; ties keep encounter order). -/
def sortByStart : List (Int × Event) → List (Int × Event)
  | [] => []
  | x :: xs => insertByStart x (sortByStart xs)

/-- Python list slicing xs[:n] including the negative-stop semantics:
a non-negative stop takes the first n elements, a negative stop drops
the last |n| elements (empty when |n| is at least the length). -/
def pySliceTo (n : Int) (xs : List Event) : List Event :=
  if 0 ≤ n then xs.take n.toNat
  else xs.take (xs.length - n.natAbs)

/-- filter_events: annotate and filter with overlap semantics, sort by
start instant (stable), strip keys, and apply the limit slice when a
limit is given.  now is the wall-clock instant the source reads at the
top of the function. -/
def filter_events (events : List Event) (after before : Option Int)
    (limit : Option Int) (now : Int) : List Event :=
  let annotated := annotateEvents after before now events
  let sorted := sortByStart annotated
  let filtered := sorted.map (fun p => p.2)
  match limit with
  | some n => pySliceTo n filtered
  | none => filtered

/-- Result of urllib.parse.urlsplit. -/
structure SplitResult where
  scheme : String
  netloc : String
  path : String
  query : String
  fragment : String
deriving DecidableEq, Repr

/-- Characters allowed in a URL scheme after the leading letter. -/
def schemeChar (c : Char) : Bool :=
  c.isAlpha || c.isDigit || c = '+' || c = '-' || c = '.'

/-- urllib.parse.urlsplit, restricted to inputs without tab, CR, LF or
leading control characters (which CPython strips first; none arise in
this pipeline).  none models the ValueError raised for a netloc with
unbalanced IPv6 brackets. -/
def urlsplit (url : String) : Option SplitResult :=
  let cs := url.data
  -- scheme: text before the first colon, when it starts with a letter
  -- and uses only scheme characters; lower-cased in the result.
  let sr : String × List Char :=
    match splitFirst (fun c => c = ':') cs with
    | some (pre, post) =>
      match pre with
      | [] => ("", cs)
      | c0 :: _ =>
        if c0.isAlpha && pre.all schemeChar then
          (String.mk (pre.map Char.toLower), post)
        else ("", cs)
    | none => ("", cs)
  let scheme := sr.1
  let rest := sr.2
  let nl : List Char × List Char :=
    match rest with
    | '/' :: '/' :: r => spanUntil (fun c => c = '/' || c = '?' || c = '#') r
    | _ => ([], rest)
  let netloc := nl.1
  if (netloc.contains '[' && !netloc.contains ']') ||
     (netloc.contains ']' && !netloc.contains '[') then none
  else
    let uf : List Char × List Char :=
      match splitFirst (fun c => c = '#') nl.2 with
      | some (u, f) => (u, f)
      | none => (nl.2, [])
    let pq : List Char × List Char :=
      match splitFirst (fun c => c = '?') uf.1 with
      | some (u, q) => (u, q)
      | none => (uf.1, [])
    some ⟨scheme, String.mk netloc, String.mk pq.1, String.mk pq.2, String.mk uf.2⟩

/-- urllib.parse.urlunsplit. -/
def urlunsplit (c : SplitResult) : String :=
  let url := c.path
  let url :=
    if c.netloc ≠ "" ∨ (url ≠ "" ∧ listStartsWith ['/', '/'] url.data = false) then
      let url2 := if url ≠ "" ∧ listStartsWith ['/'] url.data = false then "/" ++ url else url
      "//" ++ c.netloc ++ url2
    else url
  let url := if c.scheme ≠ "" then c.scheme ++ ":" ++ url else url
  let url := if c.query ≠ "" then url ++ "?" ++ c.query else url
  if c.fragment ≠ "" then url ++ "#" ++ c.fragment else url

/-- normalize_calendar_url: rewrite webcal/webcals to https, leave any
other URL untouched.  none models the ValueError urlsplit can raise. -/
def normalize_calendar_url (url : String) : Option String :=
  match urlsplit url with
  | none => none
  | some parsed =>
    let scheme := String.mk (parsed.scheme.data.map Char.toLower)
    if scheme = "webcal" then
      some (urlunsplit ⟨"https", parsed.netloc, parsed.path, parsed.query, parsed.fragment⟩)
    else if scheme = "webcals" then
      some (urlunsplit ⟨"https", parsed.netloc, parsed.path, parsed.query, parsed.fragment⟩)
    else
      some url

/-- Reduction to a 32-bit word. -/
def w32 (x : Nat) : Nat := x % 4294967296

/-- Bitwise complement on 32-bit words. -/
def bnot32 (x : Nat) : Nat := x ^^^ 4294967295

/-- Right rotation of a 32-bit word. -/
def rotr (n x : Nat) : Nat := w32 ((x >>> n) ||| (x <<< (32 - n)))

/-- Integer cube root by binary search (auxiliary, with fuel). -/
def icbrtAux : Nat → Nat → Nat → Nat → Nat
  | 0, lo, _, _ => lo
  | fuel + 1, lo, hi, n =>
    if hi ≤ lo + 1 then lo
    else
      let mid := (lo + hi) / 2
      if mid ^ 3 ≤ n then icbrtAux fuel mid hi n else icbrtAux fuel lo mid n

/-- Integer cube root: the largest r with r^3 at most n. -/
def icbrt (n : Nat) : Nat := icbrtAux 200 0 (n + 2) n

/-- The first 64 primes, from which the SHA-256 constants derive. -/
def primes64 : List Nat :=
  [2, 3, 5, 7, 11, 13, 17, 19, 23, 29, 31, 37, 41, 43, 47, 53,
   59, 61, 67, 71, 73, 79, 83, 89, 97, 101, 103, 107, 109, 113, 127, 131,
   137, 139, 149, 151, 157, 163, 167, 173, 179, 181, 191, 193, 197, 199, 211, 223,
   227, 229, 233, 239, 241, 251, 257, 263, 269, 271, 277, 281, 283, 293, 307, 311]

/-- SHA-256 round constants: fractional bits of the cube roots of the
first 64 primes. -/
def shaK : List Nat := primes64.map (fun p => w32 (icbrt (p * 2 ^ 96)))

/-- SHA-256 initial hash: fractional bits of the square roots of the
first 8 primes. -/
def shaH0 : List Nat := (primes64.take 8).map (fun p => w32 (Nat.sqrt (p * 2 ^ 64)))

/-- Big-endian bytes of a 32-bit word. -/
def bytesBE4 (x : Nat) : List Nat :=
  [x / 16777216 % 256, x / 65536 % 256, x / 256 % 256, x % 256]

/-- Big-endian bytes of a 64-bit length. -/
def bytesBE8 (x : Nat) : List Nat :=
  bytesBE4 (x / 4294967296 % 4294967296) ++ bytesBE4 x

/-- A big-endian 32-bit word from up to four bytes. -/
def ofBytesBE (bs : List Nat) : Nat := bs.foldl (fun a b => 256 * a + b) 0

/-- SHA-256 padding: 0x80, zeros to 56 mod 64, 64-bit bit length. -/
def sha256pad (msg : List Nat) : List Nat :=
  let len := msg.length
  msg ++ [128] ++ List.replicate ((55 + 64 - len % 64) % 64) 0 ++ bytesBE8 (8 * len)

/-- Split a padded message into 64-byte chunks. -/
def chunks64 : List Nat → List (List Nat)
  | [] => []
  | c :: rest => ((c :: rest).take 64) :: chunks64 ((c :: rest).drop 64)
termination_by l => l.length
decreasing_by simp [List.length_drop]; omega

/-- The first sixteen schedule words of a chunk. -/
def initW (chunk : List Nat) : List Nat :=
  (List.range 16).map (fun i => ofBytesBE ((chunk.drop (4 * i)).take 4))

/-- Message-schedule extension: append n more words. -/
def extendW : Nat → List Nat → List Nat
  | 0, w => w
  | n + 1, w =>
    let i := w.length
    let s0x := w.getD (i - 15) 0
    let s1x := w.getD (i - 2) 0
    let s0 := rotr 7 s0x ^^^ rotr 18 s0x ^^^ (s0x >>> 3)
    let s1 := rotr 17 s1x ^^^ rotr 19 s1x ^^^ (s1x >>> 10)
    extendW n (w ++ [w32 (w.getD (i - 16) 0 + s0 + w.getD (i - 7) 0 + s1)])

/-- One SHA-256 compression round on the eight-word state. -/
def compressRound (st : List Nat) (kw : Nat × Nat) : List Nat :=
  match st with
  | [a, b, c, d, e, f, g, h] =>
    let s1 := rotr 6 e ^^^ rotr 11 e ^^^ rotr 25 e
    let ch := (e &&& f) ^^^ (bnot32 e &&& g)
    let t1 := w32 (h + s1 + ch + kw.1 + kw.2)
    let s0 := rotr 2 a ^^^ rotr 13 a ^^^ rotr 22 a
    let mj := (a &&& b) ^^^ (a &&& c) ^^^ (b &&& c)
    let t2 := w32 (s0 + mj)
    [w32 (t1 + t2), a, b, c, w32 (d + t1), e, f, g]
  | other => other

/-- Process one 64-byte chunk. -/
def processChunk (h : List Nat) (chunk : List Nat) : List Nat :=
  let w := extendW 48 (initW chunk)
  let st := (shaK.zip w).foldl compressRound h
  (h.zip st).map (fun p => w32 (p.1 + p.2))

/-- SHA-256 digest of a byte list. -/
def sha256 (msg : List Nat) : List Nat :=
  let hs := (chunks64 (sha256pad msg)).foldl processChunk shaH0
  hs.foldr (fun h acc => bytesBE4 h ++ acc) []

/-- Lower-case hex character of a nibble. -/
def hexChar (n : Nat) : Char :=
  if n < 10 then Char.ofNat (48 + n) else Char.ofNat (87 + n)

/-- url_cache_key: hashlib.sha256(url.encode("utf-8")).hexdigest(). -/
def url_cache_key (url : String) : String :=
  String.mk ((sha256 (url.toUTF8.toList.map (fun b => b.toNat))).foldr
    (fun b acc => hexChar (b / 16) :: hexChar (b % 16) :: acc) [])

/-- The metadata JSON stored next to a cached body.  A missing or
non-string field reads as none (dict.get plus the isinstance checks;
fetched_at is the already-parsed timestamp, since
parse_cached_timestamp returns None for missing or unparsable values). -/
structure FetchMeta where
  url : Option String := none
  fetched_at : Option Int := none
  etag : Option String := none
  last_modified : Option String := none
deriving DecidableEq, Repr

/-- On-disk cache state for one URL: the body blob (none when the .ics
file does not exist) and the metadata (none when the .json file is
missing or unparsable, which the source treats as the empty dict). -/
structure CacheState where
  body : Option String := none
  meta : Option FetchMeta := none
deriving DecidableEq, Repr

/-- The metadata dict the source works with (empty on missing/corrupt). -/
def metaOf (st : CacheState) : FetchMeta := st.meta.getD {}

/-- Outcome of the one network request a fetch may perform: a
successful response with body and validator headers, an HTTPError with
a status code, or any other exception (URLError, timeout, decode or
write failure). -/
inductive NetOutcome where
  | success (content : String) (etag last_modified : Option String)
  | httpError (code : Nat)
  | netError
deriving DecidableEq, Repr

/-- An exception propagated out of fetch_ics_url_content. -/
inductive FetchError where
  | httpError (code : Nat)
  | netError
deriving DecidableEq, Repr

deriving instance DecidableEq for Except

/-- Result of one fetch: the returned content or propagated exception,
the number of network requests performed, the cache state afterwards,
and whether the stale-cache warning was printed. -/
structure FetchResult where
  result : Except FetchError String
  networkCalls : Nat
  state : CacheState
  warnedStale : Bool
deriving DecidableEq, Repr

/-- The freshness test of lines 434-436: a cached body exists, its
fetched_at parsed, and its age is within the TTL. -/
def cacheFresh (st : CacheState) (now cache_ttl : Int) : Bool :=
  match st.body, (metaOf st).fetched_at with
  | some _, some fetched_at => decide (now - fetched_at ≤ cache_ttl)
  | some _, none => false
  | none, _ => false

/-- The conditional request and its exception handlers (lines 439-474).
On success: write body, write fresh metadata, return content.  On
HTTPError: return the cached body after refreshing fetched_at when the
code is 304 and a body exists, otherwise re-raise — note the re-raise
inside the HTTPError handler is NOT caught by the later generic
handler, so a non-304 HTTP error propagates even when a cached body
exists.  On any other exception: warn and return the stale body when
one exists, otherwise propagate. -/
def attemptNetwork (url : String) (st : CacheState) (now : Int)
    (net : NetOutcome) : FetchResult :=
  match net with
  | .success content etag last_modified =>
    { result := .ok content, networkCalls := 1,
      state := { body := some content,
                 meta := some { url := some url, fetched_at := some now,
                                etag := etag, last_modified := last_modified } },
      warnedStale := false }
  | .httpError code =>
    if code = 304 then
      match st.body with
      | some b =>
        { result := .ok b, networkCalls := 1,
          state := { st with meta := some { metaOf st with url := some url, fetched_at := some now } },
          warnedStale := false }
      | none =>
        { result := .error (.httpError 304), networkCalls := 1, state := st,
          warnedStale := false }
    else
      { result := .error (.httpError code), networkCalls := 1, state := st,
        warnedStale := false }
  | .netError =>
    match st.body with
    | some b =>
      { result := .ok b, networkCalls := 1, state := st, warnedStale := true }
    | none =>
      { result := .error .netError, networkCalls := 1, state := st,
        warnedStale := false }

/-- fetch_ics_url_content: a non-positive TTL bypasses the cache with a
direct unconditional fetch; otherwise serve a fresh cached body with no
network call, or attempt the network with the handlers above. -/
def fetch_ics_url_content (url : String) (st : CacheState) (now : Int)
    (cache_ttl : Int) (net : NetOutcome) : FetchResult :=
  if cache_ttl ≤ 0 then
    match net with
    | .success content _ _ =>
      { result := .ok content, networkCalls := 1, state := st, warnedStale := false }
    | .httpError code =>
      { result := .error (.httpError code), networkCalls := 1, state := st,
        warnedStale := false }
    | .netError =>
      { result := .error .netError, networkCalls := 1, state := st,
        warnedStale := false }
  else
    match st.body, (metaOf st).fetched_at with
    | some body, some fetched_at =>
      if now - fetched_at ≤ cache_ttl then
        { result := .ok body, networkCalls := 0, state := st, warnedStale := false }
      else attemptNetwork url st now net
    | some _, none => attemptNetwork url st now net
    | none, _ => attemptNetwork url st now net

/-! ## Helper lemmas -/

/-- replacePair leaves a list without the pattern's first character
unchanged. -/
theorem replacePair_eq_of_not_mem {a b : Char} {repl l : List Char}
    (h : a ∉ l) : replacePair a b repl l = l := by
  match l, h with
  | [], _ => rfl
  | [c], _ => rfl
  | c :: d :: rest, h =>
    have hc : c ≠ a := fun hc => h (hc ▸ List.mem_cons_self c (d :: rest))
    have hrest : a ∉ d :: rest := fun hm => h (List.mem_cons_of_mem c hm)
    rw [replacePair]
    simp only [hc, false_and, if_false]
    rw [replacePair_eq_of_not_mem hrest]

/-! ## Claim C2 -/

/-- C2 (code evaluated at the failing input): the claim says parse_dt
returns (no instant, no ISO string, all_day false) on any undecodable
value, and that parsing never raises.  On the eight-digit value
20240145 — which matches the DATE shape but is not a valid date —
strptime raises ValueError, which neither parse_dt nor
parse_ics_events catches: a calendar containing DTSTART:20240145 makes
parsing fatal. -/
theorem parse_dt_raises_on_20240145 :
    (∀ (tzdb : String → Option Int) (params : List (String × String)),
      parse_dt tzdb "20240145" params = .error .valueError) ∧
    (∀ tzdb : String → Option Int,
      parse_ics_events tzdb "BEGIN:VEVENT\nDTSTART:20240145\nEND:VEVENT" =
        .error .valueError) := by
  refine ⟨fun tzdb params => rfl, fun tzdb => rfl⟩

/-! ## Claim C4 -/

/-- C4 counterexample: the claim says the three-character input
backslash-backslash-n decodes to the literal two-character
backslash-n.  In fact the collapsed backslash recombines with the
following n, and the sequential replaces produce a newline. -/
theorem unescape_backslash_backslash_n_is_newline :
    unescape_ical_text "\\\\n" = "\n" ∧ unescape_ical_text "\\\\n" ≠ "\\n" := by
  exact ⟨rfl, by decide⟩

/-- C4 (amended): the replacements are applied in the stated order by
sequential whole-string substitution, so each single escape decodes as
specified and strings without backslashes are unchanged; but because
the backslash collapse runs first, backslash-backslash-n double-
unescapes to a newline, not to the literal backslash-n. -/
theorem unescape_ical_text_spec :
    (∀ s : String, '\\' ∉ s.data → unescape_ical_text s = s) ∧
    unescape_ical_text "\\\\" = "\\" ∧
    unescape_ical_text "\\n" = "\n" ∧
    unescape_ical_text "\\N" = "\n" ∧
    unescape_ical_text "\\," = "," ∧
    unescape_ical_text "\\;" = ";" ∧
    unescape_ical_text "\\\\n" = "\n" := by
  refine ⟨fun s h => ?_, rfl, rfl, rfl, rfl, rfl, rfl⟩
  unfold unescape_ical_text
  rw [replacePair_eq_of_not_mem h, replacePair_eq_of_not_mem h,
    replacePair_eq_of_not_mem h, replacePair_eq_of_not_mem h,
    replacePair_eq_of_not_mem h]

/-- C4 witness: the theorem applied at a concrete backslash-free
input. -/
theorem unescape_ical_text_spec_witness : unescape_ical_text "SUMMARY text" = "SUMMARY text" :=
  unescape_ical_text_spec.1 "SUMMARY text" (by decide)

/-! ## Claim C5 -/

/-- C5 counterexample: two filter calls with identical events, after,
before and limit arguments but made at different wall-clock instants
differ in the derived is_ongoing field, so the output is not a
function of the four listed inputs alone. -/
theorem filter_events_depends_on_clock :
    filter_events
      [{ start := some "2024-01-15T09:00:00+00:00", «end» := some "2024-01-15T10:00:00+00:00" }]
      none none none 1705309200 ≠
    filter_events
      [{ start := some "2024-01-15T09:00:00+00:00", «end» := some "2024-01-15T10:00:00+00:00" }]
      none none none 0 := by
  decide

/-- C5 (amended): filtering is a pure function of events, after,
before, limit AND the current instant now: two calls whose five inputs
are identical yield identical, identically ordered output, including
every derived field. -/
theorem filter_events_deterministic (e1 e2 : List Event) (a1 a2 b1 b2 l1 l2 : Option Int)
    (n1 n2 : Int) (he : e1 = e2) (ha : a1 = a2) (hb : b1 = b2) (hl : l1 = l2)
    (hn : n1 = n2) :
    filter_events e1 a1 b1 l1 n1 = filter_events e2 a2 b2 l2 n2 := by
  rw [he, ha, hb, hl, hn]

/-- C5 witness: determinism applied at a concrete call. -/
theorem filter_events_deterministic_witness :
    filter_events [{ start := some "2024-01-15" }] none none none 0 =
    filter_events [{ start := some "2024-01-15" }] none none none 0 :=
  filter_events_deterministic _ _ _ _ _ _ _ _ _ _ rfl rfl rfl rfl rfl

/-! ## Claim C10 -/

/-- C10: a BEGIN:VEVENT seen while a record is open replaces the open
record with a fresh empty one and leaves the collected events
untouched (the open record is discarded, never appended); END:VEVENT
appends exactly the record that is open at that point.  Concretely, a
nested VEVENT loses the outer record's fields and emits only the inner
one. -/
theorem parseStep_begin_discards_open_record (tzdb : String → Option Int)
    (st : ParseState) (ev : Event) (h : st.current = some ev) :
    parseStep tzdb st "BEGIN:VEVENT" = .ok { st with current := some emptyEvent } ∧
    ({ st with current := some emptyEvent } : ParseState).events = st.events ∧
    parseStep tzdb st "END:VEVENT" = .ok { events := st.events ++ [ev], current := none } ∧
    parse_ics_events tzdb "BEGIN:VEVENT\nSUMMARY:Outer\nBEGIN:VEVENT\nSUMMARY:Inner\nEND:VEVENT" =
      .ok [{ emptyEvent with summary := some "Inner" }] := by
  refine ⟨?_, rfl, ?_, rfl⟩
  · simp [parseStep]
  · simp [parseStep, h]

/-- C10 witness: the step facts at a concrete open state. -/
theorem parseStep_begin_discards_open_record_witness :
    parseStep (fun _ => none) ⟨[], some { emptyEvent with summary := some "Outer" }⟩ "BEGIN:VEVENT" =
      .ok ⟨[], some emptyEvent⟩ ∧
    parseStep (fun _ => none) ⟨[], some { emptyEvent with summary := some "Outer" }⟩ "END:VEVENT" =
      .ok ⟨[{ emptyEvent with summary := some "Outer" }], none⟩ := by
  have h := parseStep_begin_discards_open_record (fun _ => none)
    ⟨[], some { emptyEvent with summary := some "Outer" }⟩
    { emptyEvent with summary := some "Outer" } rfl
  exact ⟨h.1, h.2.2.1⟩

/-! ## Claims C3 and C9: the limit slice -/

/-- A given limit is applied as the Python slice on the unlimited
output. -/
theorem filter_events_limit_some (events : List Event) (after before : Option Int)
    (n : Int) (now : Int) :
    filter_events events after before (some n) now =
      pySliceTo n (filter_events events after before none now) := rfl

/-- C3 counterexample: the claim says a limit of zero returns all
qualifying events; in fact the slice filtered[:0] returns the empty
list even when a qualifying event exists. -/
theorem filter_events_limit_zero_is_empty :
    filter_events [{ start := some "2024-01-15", «end» := some "2024-01-15" }]
      none none (some 0) 0 = [] ∧
    filter_events [{ start := some "2024-01-15", «end» := some "2024-01-15" }]
      none none none 0 ≠ [] := by
  exact ⟨rfl, by decide⟩

/-- C3 (amended): an unset limit returns the full sorted qualifying
sequence; a non-negative limit n returns exactly its first n elements
— so a positive limit gives the n earliest by start instant, and a
limit of zero gives the empty list, not unbounded output. -/
theorem filter_events_nonneg_limit (events : List Event) (after before : Option Int)
    (now : Int) (n : Int) (h : 0 ≤ n) :
    filter_events events after before (some n) now =
      (filter_events events after before none now).take n.toNat := by
  rw [filter_events_limit_some]
  unfold pySliceTo
  rw [if_pos h]

/-- C3 witness: the amended statement at a concrete call. -/
theorem filter_events_nonneg_limit_witness :
    filter_events [{ start := some "2024-01-15" }] none none (some 2) 0 =
      (filter_events [{ start := some "2024-01-15" }] none none none 0).take 2 :=
  filter_events_nonneg_limit [{ start := some "2024-01-15" }] none none 0 2 (by decide)

/-- C9: a negative limit n is the Python negative slice filtered[:n]:
the sorted qualifying sequence with its last |n| elements removed (not
unbounded output and not an error). -/
theorem filter_events_negative_limit (events : List Event) (after before : Option Int)
    (now : Int) (n : Int) (h : n < 0) :
    filter_events events after before (some n) now =
      (filter_events events after before none now).take
        ((filter_events events after before none now).length - n.natAbs) := by
  rw [filter_events_limit_some]
  unfold pySliceTo
  rw [if_neg (by omega)]

/-- C9 witness: limit -1 on two qualifying events keeps only the
earlier one. -/
theorem filter_events_negative_limit_witness :
    filter_events [{ start := some "2024-01-15" }, { start := some "2024-01-16" }]
      none none (some (-1)) 0 =
      (filter_events [{ start := some "2024-01-15" }, { start := some "2024-01-16" }]
        none none none 0).take
        ((filter_events [{ start := some "2024-01-15" }, { start := some "2024-01-16" }]
          none none none 0).length - Int.natAbs (-1)) :=
  filter_events_negative_limit
    [{ start := some "2024-01-15" }, { start := some "2024-01-16" }]
    none none 0 (-1) (by decide)

/-! ## Claims C1 and C7: the fetch cache -/

/-- With a positive TTL and a stale (or absent) cache, the fetch is the
network attempt. -/
theorem fetch_attempts_network (url : String) (st : CacheState) (now cache_ttl : Int)
    (net : NetOutcome) (hpos : 0 < cache_ttl)
    (hstale : cacheFresh st now cache_ttl = false) :
    fetch_ics_url_content url st now cache_ttl net = attemptNetwork url st now net := by
  unfold fetch_ics_url_content
  rw [if_neg (by omega)]
  unfold cacheFresh at hstale
  cases hb : st.body with
  | none => rfl
  | some b =>
    cases hf : (metaOf st).fetched_at with
    | none => rfl
    | some fa =>
      rw [hb, hf] at hstale
      simp only [decide_eq_false_iff_not] at hstale
      exact if_neg hstale

/-- C1 counterexample: the claim says a non-304 HTTP error status (for
example 500) returns the stale cached body when one exists.  With a
cached body present and stale, an HTTP 500 propagates as an error
instead: the re-raise inside the HTTPError handler is not caught by the
later generic handler. -/
theorem fetch_http_error_propagates_despite_cached_body :
    (⟨some "OLD", some { fetched_at := some 0 }⟩ : CacheState).body = some "OLD" ∧
    (fetch_ics_url_content "https://example.com/cal.ics"
      ⟨some "OLD", some { fetched_at := some 0 }⟩ 10000 900 (.httpError 500)).result =
      .error (.httpError 500) := by
  exact ⟨rfl, rfl⟩

/-- C1 (amended): when the cache is consulted and stale, a failure that
is not an HTTP error response (connection error, timeout and the like)
returns the stale cached body with the warning when one exists and
propagates when none does; but an HTTP error status other than 304 is
always propagated, even when a cached body exists. -/
theorem fetch_stale_fallback_spec (url : String) (st : CacheState) (now ttl : Int)
    (httl : 0 < ttl) (hstale : cacheFresh st now ttl = false) :
    (∀ b : String, st.body = some b →
      fetch_ics_url_content url st now ttl .netError =
        { result := .ok b, networkCalls := 1, state := st, warnedStale := true }) ∧
    (st.body = none →
      (fetch_ics_url_content url st now ttl .netError).result = .error .netError) ∧
    (∀ code : Nat, code ≠ 304 →
      (fetch_ics_url_content url st now ttl (.httpError code)).result =
        .error (.httpError code)) := by
  refine ⟨?_, ?_, ?_⟩
  · intro b hb
    rw [fetch_attempts_network url st now ttl .netError httl hstale]
    simp [attemptNetwork, hb]
  · intro hb
    rw [fetch_attempts_network url st now ttl .netError httl hstale]
    simp [attemptNetwork, hb]
  · intro code hc
    rw [fetch_attempts_network url st now ttl (.httpError code) httl hstale]
    simp [attemptNetwork, hc]

/-- C1 witness: the amended statement at a concrete stale cache. -/
theorem fetch_stale_fallback_spec_witness :
    fetch_ics_url_content "u" ⟨some "OLD", some { fetched_at := some 0 }⟩ 10000 900 .netError =
      { result := .ok "OLD", networkCalls := 1,
        state := ⟨some "OLD", some { fetched_at := some 0 }⟩, warnedStale := true } ∧
    (fetch_ics_url_content "u" ⟨some "OLD", some { fetched_at := some 0 }⟩ 10000 900
      (.httpError 500)).result = .error (.httpError 500) := by
  have h := fetch_stale_fallback_spec "u" ⟨some "OLD", some { fetched_at := some 0 }⟩
    10000 900 (by decide) (by decide)
  exact ⟨h.1 "OLD" rfl, h.2.2 500 (by decide)⟩

/-- C7: with a positive TTL, a first fetch that reaches the network and
succeeds stores the body; any second fetch within TTL seconds of it
returns that same body with zero network calls, whatever the network
would have answered. -/
theorem fetch_second_within_ttl_no_network (url : String) (st0 : CacheState)
    (t t2 ttl : Int) (c : String) (etag lm : Option String) (net2 : NetOutcome)
    (httl : 0 < ttl) (hstale : cacheFresh st0 t ttl = false) (hage : t2 - t ≤ ttl) :
    (fetch_ics_url_content url st0 t ttl (.success c etag lm)).result = .ok c ∧
    (fetch_ics_url_content url st0 t ttl (.success c etag lm)).networkCalls = 1 ∧
    (fetch_ics_url_content url st0 t ttl (.success c etag lm)).state.body = some c ∧
    (fetch_ics_url_content url
      (fetch_ics_url_content url st0 t ttl (.success c etag lm)).state t2 ttl net2) =
      { result := .ok c, networkCalls := 0,
        state := (fetch_ics_url_content url st0 t ttl (.success c etag lm)).state,
        warnedStale := false } := by
  rw [fetch_attempts_network url st0 t ttl (.success c etag lm) httl hstale]
  refine ⟨rfl, rfl, rfl, ?_⟩
  unfold attemptNetwork fetch_ics_url_content
  rw [if_neg (by omega)]
  exact if_pos hage

/-- C7 witness: an empty cache, a successful fetch at time 0, and a
re-fetch at time 500 with TTL 900 while the network would fail. -/
theorem fetch_second_within_ttl_no_network_witness :
    (fetch_ics_url_content "u" ⟨none, none⟩ 0 900 (.success "BODY" none none)).result =
      .ok "BODY" ∧
    (fetch_ics_url_content "u"
      (fetch_ics_url_content "u" ⟨none, none⟩ 0 900 (.success "BODY" none none)).state
      500 900 .netError) =
      { result := .ok "BODY", networkCalls := 0,
        state := (fetch_ics_url_content "u" ⟨none, none⟩ 0 900 (.success "BODY" none none)).state,
        warnedStale := false } := by
  have h := fetch_second_within_ttl_no_network "u" ⟨none, none⟩ 0 500 900 "BODY"
    none none .netError (by decide) (by decide) (by decide)
  exact ⟨h.1, h.2.2.2⟩

/-! ## Claim C6: the overlap predicate -/

/-- The after-drop test is false exactly when after is unset or the end
does not precede it. -/
theorem droppedByAfter_eq_false_iff (after : Option Int) (e : Int) :
    droppedByAfter after e = false ↔ ¬ ∃ a, after = some a ∧ e < a := by
  cases after with
  | none => simp [droppedByAfter]
  | some a => simp [droppedByAfter]

/-- The before-drop test is false exactly when before is unset or the
start does not exceed it. -/
theorem droppedByBefore_eq_false_iff (before : Option Int) (s : Int) :
    droppedByBefore before s = false ↔ ¬ ∃ b, before = some b ∧ s > b := by
  cases before with
  | none => simp [droppedByBefore]
  | some b => simp [droppedByBefore]

/-- Membership in an insertion. -/
theorem mem_insertByStart (x a : Int × Event) (l : List (Int × Event)) :
    x ∈ insertByStart a l ↔ x = a ∨ x ∈ l := by
  induction l with
  | nil => simp [insertByStart]
  | cons y ys ih =>
    rw [insertByStart]
    by_cases h : a.1 ≤ y.1
    · rw [if_pos h]
      simp [List.mem_cons]
    · rw [if_neg h]
      simp only [List.mem_cons, ih]
      tauto

/-- Sorting preserves membership. -/
theorem mem_sortByStart (x : Int × Event) (l : List (Int × Event)) :
    x ∈ sortByStart l ↔ x ∈ l := by
  induction l with
  | nil => simp [sortByStart]
  | cons y ys ih =>
    rw [sortByStart, mem_insertByStart]
    simp only [List.mem_cons, ih]

/-- Membership in the annotation loop: exactly the events of the input
with resolvable start and end that pass both drop tests, annotated and
keyed by their start instant. -/
theorem mem_annotateEvents (after before : Option Int) (now : Int)
    (events : List Event) (x : Int × Event) :
    x ∈ annotateEvents after before now events ↔
      ∃ ev, ev ∈ events ∧ ∃ s e, normalize_event_start ev = some s ∧
        normalize_event_end ev = some e ∧ droppedByAfter after e = false ∧
        droppedByBefore before s = false ∧ x = (s, setOngoing ev s e now) := by
  induction events with
  | nil => simp [annotateEvents]
  | cons ev0 rest ih =>
    rw [annotateEvents]
    cases h1 : normalize_event_start ev0 with
    | none =>
      simp only []
      rw [ih]
      constructor
      · rintro ⟨ev, hev, s, e, hs, he, hda, hdb, hx⟩
        exact ⟨ev, List.mem_cons_of_mem ev0 hev, s, e, hs, he, hda, hdb, hx⟩
      · rintro ⟨ev, hev, s, e, hs, he, hda, hdb, hx⟩
        rcases List.mem_cons.mp hev with rfl | hev2
        · rw [h1] at hs; cases hs
        · exact ⟨ev, hev2, s, e, hs, he, hda, hdb, hx⟩
    | some s0 =>
      cases h2 : normalize_event_end ev0 with
      | none =>
        simp only []
        rw [ih]
        constructor
        · rintro ⟨ev, hev, s, e, hs, he, hda, hdb, hx⟩
          exact ⟨ev, List.mem_cons_of_mem ev0 hev, s, e, hs, he, hda, hdb, hx⟩
        · rintro ⟨ev, hev, s, e, hs, he, hda, hdb, hx⟩
          rcases List.mem_cons.mp hev with rfl | hev2
          · rw [h2] at he; cases he
          · exact ⟨ev, hev2, s, e, hs, he, hda, hdb, hx⟩
      | some e0 =>
        simp only []
        cases hda0 : droppedByAfter after e0 with
        | true =>
          rw [if_pos rfl, ih]
          constructor
          · rintro ⟨ev, hev, s, e, hs, he, hda, hdb, hx⟩
            exact ⟨ev, List.mem_cons_of_mem ev0 hev, s, e, hs, he, hda, hdb, hx⟩
          · rintro ⟨ev, hev, s, e, hs, he, hda, hdb, hx⟩
            rcases List.mem_cons.mp hev with rfl | hev2
            · rw [h2] at he
              cases he
              rw [hda0] at hda
              cases hda
            · exact ⟨ev, hev2, s, e, hs, he, hda, hdb, hx⟩
        | false =>
          rw [if_neg (by simp [hda0])]
          cases hdb0 : droppedByBefore before s0 with
          | true =>
            rw [if_pos rfl, ih]
            constructor
            · rintro ⟨ev, hev, s, e, hs, he, hda, hdb, hx⟩
              exact ⟨ev, List.mem_cons_of_mem ev0 hev, s, e, hs, he, hda, hdb, hx⟩
            · rintro ⟨ev, hev, s, e, hs, he, hda, hdb, hx⟩
              rcases List.mem_cons.mp hev with rfl | hev2
              · rw [h1] at hs
                cases hs
                rw [hdb0] at hdb
                cases hdb
              · exact ⟨ev, hev2, s, e, hs, he, hda, hdb, hx⟩
          | false =>
            rw [if_neg (by simp [hdb0])]
            rw [List.mem_cons, ih]
            constructor
            · rintro (hx | ⟨ev, hev, s, e, hs, he, hda, hdb, hx⟩)
              · exact ⟨ev0, List.mem_cons_self ev0 rest, s0, e0, h1, h2, hda0, hdb0, hx⟩
              · exact ⟨ev, List.mem_cons_of_mem ev0 hev, s, e, hs, he, hda, hdb, hx⟩
            · rintro ⟨ev, hev, s, e, hs, he, hda, hdb, hx⟩
              rcases List.mem_cons.mp hev with rfl | hev2
              · rw [h1] at hs
                rw [h2] at he
                cases hs
                cases he
                exact Or.inl hx
              · exact Or.inr ⟨ev, hev2, s, e, hs, he, hda, hdb, hx⟩

/-- C6: for an event with resolvable start and end instants, the
(unlimited) filter keeps the event — annotated with is_ongoing — if
and only if not (after is set and end is before it) and not (before is
set and start is after it): overlap semantics, so an event spanning
2024-01-10 to 2024-01-20 survives after = 2024-01-15 while one ending
2024-01-14 does not (see the witness). -/
theorem filter_events_keeps_iff_overlap (events : List Event)
    (after before : Option Int) (now : Int) (ev : Event) (s e : Int)
    (hs : normalize_event_start ev = some s) (he : normalize_event_end ev = some e)
    (hmem : ev ∈ events) :
    setOngoing ev s e now ∈ filter_events events after before none now ↔
      (¬ ∃ a, after = some a ∧ e < a) ∧ ¬ ∃ b, before = some b ∧ s > b := by
  have hfe : filter_events events after before none now =
      (sortByStart (annotateEvents after before now events)).map (fun p => p.2) := rfl
  rw [hfe, List.mem_map]
  constructor
  · rintro ⟨p, hp, hpx⟩
    rw [mem_sortByStart, mem_annotateEvents] at hp
    obtain ⟨ev2, hev2, s2, e2, hs2, he2, hda2, hdb2, rfl⟩ := hp
    have hob : setOngoing ev2 s2 e2 now = setOngoing ev s e now := hpx
    have hstart0 := congrArg Event.start hob
    have hend0 := congrArg Event.«end» hob
    have hstart : ev2.start = ev.start := hstart0
    have hend : ev2.«end» = ev.«end» := hend0
    have hsev : normalize_event_start ev2 = some s := by
      rw [normalize_event_start, hstart]
      exact hs
    have heev : normalize_event_end ev2 = some e := by
      rw [normalize_event_end, hend, hstart]
      exact he
    have hseq : s2 = s := Option.some.inj (hs2.symm.trans hsev)
    have heeq : e2 = e := Option.some.inj (he2.symm.trans heev)
    rw [hseq] at hdb2
    rw [heeq] at hda2
    exact ⟨(droppedByAfter_eq_false_iff after e).mp hda2,
      (droppedByBefore_eq_false_iff before s).mp hdb2⟩
  · rintro ⟨hna, hnb⟩
    refine ⟨(s, setOngoing ev s e now), ?_, rfl⟩
    rw [mem_sortByStart, mem_annotateEvents]
    exact ⟨ev, hmem, s, e, hs, he, (droppedByAfter_eq_false_iff after e).mpr hna,
      (droppedByBefore_eq_false_iff before s).mpr hnb, rfl⟩

/-- C6 witness: with after = 2024-01-15T00:00:00Z, the event spanning
2024-01-10 to 2024-01-20 is kept (its end does not precede after), and
the iff also certifies that an event ending 2024-01-14 is dropped —
instantiated here on the spanning event of the claim's example. -/
theorem filter_events_keeps_iff_overlap_witness :
    setOngoing { start := some "2024-01-10", «end» := some "2024-01-20" }
        1704844800 1705708800 0 ∈
      filter_events
        [{ start := some "2024-01-10", «end» := some "2024-01-20" },
         { start := some "2024-01-12", «end» := some "2024-01-14" }]
        (some 1705276800) none none 0 ↔
      (¬ ∃ a, (some 1705276800 : Option Int) = some a ∧ (1705708800 : Int) < a) ∧
        ¬ ∃ b, (none : Option Int) = some b ∧ (1704844800 : Int) > b :=
  filter_events_keeps_iff_overlap
    [{ start := some "2024-01-10", «end» := some "2024-01-20" },
     { start := some "2024-01-12", «end» := some "2024-01-14" }]
    (some 1705276800) none 0
    { start := some "2024-01-10", «end» := some "2024-01-20" }
    1704844800 1705708800 rfl rfl (by simp)

/-! ## Claim C8: URL normalization and the cache key -/

/-- splitFirst walks past a clean prefix to the first separator. -/
theorem splitFirst_append_of_sep (p : Char → Bool) (l r : List Char) (d : Char)
    (hl : ∀ c ∈ l, p c = false) (hd : p d = true) :
    splitFirst p (l ++ d :: r) = some (l, r) := by
  induction l with
  | nil => simp [splitFirst, hd]
  | cons c cs ih =>
    have hc : p c = false := hl c (List.mem_cons_self c cs)
    have hcs : ∀ x ∈ cs, p x = false := fun x hx => hl x (List.mem_cons_of_mem c hx)
    simp [splitFirst, hc, ih hcs]

/-- splitFirst finds nothing in a clean list. -/
theorem splitFirst_eq_none (p : Char → Bool) (l : List Char)
    (hl : ∀ c ∈ l, p c = false) : splitFirst p l = none := by
  induction l with
  | nil => rfl
  | cons c cs ih =>
    have hc : p c = false := hl c (List.mem_cons_self c cs)
    have hcs : ∀ x ∈ cs, p x = false := fun x hx => hl x (List.mem_cons_of_mem c hx)
    simp [splitFirst, hc, ih hcs]

/-- spanUntil splits a clean prefix from a rest that is empty or starts
with a stopper. -/
theorem spanUntil_append_stop (p : Char → Bool) (l r : List Char)
    (hl : ∀ c ∈ l, p c = false)
    (hr : r = [] ∨ ∃ d r2, r = d :: r2 ∧ p d = true) :
    spanUntil p (l ++ r) = (l, r) := by
  induction l with
  | nil =>
    rcases hr with rfl | ⟨d, r2, rfl, hd⟩
    · rfl
    · simp [spanUntil, hd]
  | cons c cs ih =>
    have hc : p c = false := hl c (List.mem_cons_self c cs)
    have hcs : ∀ x ∈ cs, p x = false := fun x hx => hl x (List.mem_cons_of_mem c hx)
    simp [spanUntil, hc, ih hcs]

/-- A list avoiding a character does not contain it. -/
theorem contains_eq_false_of_forall (l : List Char) (a : Char)
    (h : ∀ c ∈ l, c ≠ a) : l.contains a = false := by
  rw [Bool.eq_false_iff]
  intro hcon
  obtain ⟨x, hx, hbeq⟩ := List.contains_iff_exists_mem_beq.mp hcon
  exact h x hx (eq_of_beq hbeq).symm

/-- Structure eta for String. -/
theorem string_mk_data (s : String) : String.mk s.data = s := rfl

/-- urlsplit on scheme://host/path with a well-formed scheme, a
delimiter-free host and a path that is empty or absolute and free of
query/fragment delimiters. -/
theorem urlsplit_std (c0 : Char) (screst : List Char) (host path : String)
    (hsep : ∀ c ∈ c0 :: screst, c ≠ ':')
    (halpha : c0.isAlpha = true)
    (hchars : (c0 :: screst).all schemeChar = true)
    (hhost : ∀ c ∈ host.data, c ≠ '/' ∧ c ≠ '?' ∧ c ≠ '#' ∧ c ≠ '[' ∧ c ≠ ']')
    (hpath : path.data = [] ∨ ∃ r2, path.data = '/' :: r2)
    (hpathq : ∀ c ∈ path.data, c ≠ '?' ∧ c ≠ '#') :
    urlsplit (String.mk ((c0 :: screst) ++ ':' :: '/' :: '/' :: (host.data ++ path.data))) =
      some ⟨String.mk ((c0 :: screst).map Char.toLower), host, path, "", ""⟩ := by
  have h1 : splitFirst (fun c => decide (c = ':'))
      ((c0 :: screst) ++ ':' :: '/' :: '/' :: (host.data ++ path.data)) =
      some (c0 :: screst, '/' :: '/' :: (host.data ++ path.data)) :=
    splitFirst_append_of_sep _ _ _ _ (fun c hc => decide_eq_false (hsep c hc)) (by decide)
  have h2 : spanUntil (fun c => decide (c = '/') || decide (c = '?') || decide (c = '#'))
      (host.data ++ path.data) = (host.data, path.data) := by
    apply spanUntil_append_stop
    · intro c hc
      obtain ⟨n1, n2, n3, _, _⟩ := hhost c hc
      simp [n1, n2, n3]
    · rcases hpath with h | ⟨r2, h⟩
      · exact Or.inl h
      · exact Or.inr ⟨'/', r2, h, by decide⟩
  have h3 : splitFirst (fun c => decide (c = '#')) path.data = none :=
    splitFirst_eq_none _ _ (fun c hc => decide_eq_false (hpathq c hc).2)
  have h4 : splitFirst (fun c => decide (c = '?')) path.data = none :=
    splitFirst_eq_none _ _ (fun c hc => decide_eq_false (hpathq c hc).1)
  have h5 : host.data.contains '[' = false :=
    contains_eq_false_of_forall _ _ (fun c hc => (hhost c hc).2.2.2.1)
  have h6 : host.data.contains ']' = false :=
    contains_eq_false_of_forall _ _ (fun c hc => (hhost c hc).2.2.2.2)
  unfold urlsplit
  simp only [h1, h2, h3, h4, h5, h6, halpha, hchars, Bool.and_self, if_true,
    Bool.true_and, Bool.and_true, Bool.false_and, Bool.and_false, Bool.or_self,
    Bool.not_false, Bool.false_or, Bool.or_false, if_false, string_mk_data]
  rfl

/-- urlunsplit reassembles https, a non-empty netloc and an absolute
(or empty) path with no query and no fragment. -/
theorem urlunsplit_https (host path : String) (hhostne : host ≠ "")
    (hpath : path.data = [] ∨ ∃ r2, path.data = '/' :: r2) :
    urlunsplit ⟨"https", host, path, "", ""⟩ = "https://" ++ host ++ path := by
  have hinner : ¬(path ≠ "" ∧ listStartsWith ['/'] path.data = false) := by
    rintro ⟨hne, hsw⟩
    rcases hpath with h | ⟨r2, h⟩
    · exact hne (String.ext h)
    · rw [h] at hsw
      simp [listStartsWith] at hsw
  unfold urlunsplit
  simp only [ne_eq]
  rw [if_pos (Or.inl hhostne)]
  rw [if_neg hinner]
  rfl

/-- C8: for every host and path (host non-empty and free of netloc
delimiters and brackets, path empty or absolute and free of query and
fragment delimiters), the webcal URL normalizes to the https URL, the
https URL normalizes to itself, and both therefore hash to the same
cache key (url_cache_key is computed on the normalized URL). -/
theorem webcal_https_same_cache_key (host path : String)
    (hhostne : host ≠ "")
    (hhost : ∀ c ∈ host.data, c ≠ '/' ∧ c ≠ '?' ∧ c ≠ '#' ∧ c ≠ '[' ∧ c ≠ ']')
    (hpath : path.data = [] ∨ ∃ r2, path.data = '/' :: r2)
    (hpathq : ∀ c ∈ path.data, c ≠ '?' ∧ c ≠ '#') :
    normalize_calendar_url ("webcal://" ++ host ++ path) =
      some ("https://" ++ host ++ path) ∧
    normalize_calendar_url ("https://" ++ host ++ path) =
      some ("https://" ++ host ++ path) ∧
    (normalize_calendar_url ("webcal://" ++ host ++ path)).map url_cache_key =
      (normalize_calendar_url ("https://" ++ host ++ path)).map url_cache_key := by
  have hw : urlsplit ("webcal://" ++ host ++ path) = some ⟨"webcal", host, path, "", ""⟩ :=
    urlsplit_std 'w' "ebcal".data host path (by decide) (by decide) (by decide)
      hhost hpath hpathq
  have hh : urlsplit ("https://" ++ host ++ path) = some ⟨"https", host, path, "", ""⟩ :=
    urlsplit_std 'h' "ttps".data host path (by decide) (by decide) (by decide)
      hhost hpath hpathq
  have h1 : normalize_calendar_url ("webcal://" ++ host ++ path) =
      some (urlunsplit ⟨"https", host, path, "", ""⟩) := by
    unfold normalize_calendar_url
    rw [hw]
    rfl
  rw [urlunsplit_https host path hhostne hpath] at h1
  have h2 : normalize_calendar_url ("https://" ++ host ++ path) =
      some ("https://" ++ host ++ path) := by
    unfold normalize_calendar_url
    rw [hh]
    rfl
  refine ⟨h1, h2, ?_⟩
  rw [h1, h2]

/-- C8 witness: the claim's example URLs. -/
theorem webcal_https_same_cache_key_witness :
    normalize_calendar_url "webcal://host/cal.ics" = some "https://host/cal.ics" ∧
    normalize_calendar_url "https://host/cal.ics" = some "https://host/cal.ics" ∧
    (normalize_calendar_url "webcal://host/cal.ics").map url_cache_key =
      (normalize_calendar_url "https://host/cal.ics").map url_cache_key := by
  have h := webcal_https_same_cache_key "host" "/cal.ics" (by decide) (by decide)
    (Or.inr ⟨"cal.ics".data, rfl⟩) (by decide)
  exact ⟨h.1, h.2.1, h.2.2⟩
